import Mathlib

/-!
Verification development for the WSDL/XSD generation module
(`fastapi_soap/wsdl.py`).

The module builds XML trees with `xml.etree.ElementTree`.  We embed such
trees as `Element` values: a tag, an ordered attribute list (attribute
values may be Python `None`, hence `Option String`), ordered children and
optional text content.  ElementTree's `set` replaces an existing key in
place and otherwise appends.
-/

structure Element where
  tag : String
  attribs : List (String × Option String)
  children : List Element
  text : Option String

mutual

def elemDecEq (a b : Element) : Decidable (a = b) :=
  match a, b with
  | Element.mk t1 a1 c1 x1, Element.mk t2 a2 c2 x2 =>
    if h1 : t1 = t2 then
      if h2 : a1 = a2 then
        if h4 : x1 = x2 then
          match elemListDecEq c1 c2 with
          | isTrue h3 => isTrue (by rw [h1, h2, h3, h4])
          | isFalse h3 => isFalse (fun h => h3 (by cases h; rfl))
        else isFalse (fun h => h4 (by cases h; rfl))
      else isFalse (fun h => h2 (by cases h; rfl))
    else isFalse (fun h => h1 (by cases h; rfl))

def elemListDecEq (as bs : List Element) : Decidable (as = bs) :=
  match as, bs with
  | [], [] => isTrue rfl
  | [], _ :: _ => isFalse (fun h => by cases h)
  | _ :: _, [] => isFalse (fun h => by cases h)
  | a :: as1, b :: bs1 =>
    match elemDecEq a b, elemListDecEq as1 bs1 with
    | isTrue h1, isTrue h2 => isTrue (by rw [h1, h2])
    | isFalse h1, _ => isFalse (fun h => h1 (by cases h; rfl))
    | _, isFalse h2 => isFalse (fun h => h2 (by cases h; rfl))

end

instance : DecidableEq Element := elemDecEq

/-- Embeds `elem.set(k, v)`: replace the value of an existing attribute key in
place, otherwise append the pair (ElementTree keeps insertion order). -/
def setAttr (e : Element) (k : String) (v : Option String) : Element :=
  if e.attribs.any (fun p => p.1 == k) then
    { e with attribs := e.attribs.map (fun p => if p.1 == k then (k, v) else p) }
  else
    { e with attribs := e.attribs ++ [(k, v)] }

/-- Attribute lookup: `some v` when the key is present with value `v`
(`v` itself is `Option String` since ElementTree stores whatever object
was passed to `set`, including `None`). -/
def getAttr (e : Element) (k : String) : Option (Option String) :=
  e.attribs.lookup k

/-- Embeds `parent.append(child)`. -/
def addChild (e : Element) (c : Element) : Element :=
  { e with children := e.children ++ [c] }

/-- Python truthiness of an `ElementTree.Element`: an element is truthy
iff it has at least one child (`len(elem) > 0`). -/
def elementTruthy (e : Element) : Bool :=
  !e.children.isEmpty

mutual

/-- The element together with all elements nested below it. -/
def descendants : Element → List Element
  | Element.mk t a c x => Element.mk t a c x :: descendantsList c

def descendantsList : List Element → List Element
  | [] => []
  | e :: rest => descendants e ++ descendantsList rest

end

/-!
Field metadata and type annotations.

`pydantic.fields.FieldInfo` carries an `alias` (`Optional[str]`), an
`annotation` (an arbitrary Python object, `None` when absent), and a
`default` which is `PydanticUndefined` when the field is required.
`pydantic_xml`'s `XmlEntityInfo` subclass additionally carries a `path`
(`Optional[str]`).  Plain `FieldInfo` objects have no `name` attribute;
we record attribute presence as an `Option` so that
`getattr(field_info, "name", "Unknown")` is embedded faithfully.

Annotations, as they reach `generate_xsd_element`:

* `cls n` — a plain class with `__name__ = n` (e.g. `int`, `str`, `date`);
* `generic o` — a subscripted generic alias such as `list[int]`
  (`__name__` is the origin name, `"list"`, on Python ≥ 3.10).  Crucially
  `isinstance(list[int], list)` is `False`: a generic alias is not a
  `list` instance.  The element type argument is never consulted by the
  source, so it is not recorded;
* `pyList` — an actual (empty) `list` object, the only kind of value for
  which `isinstance(x, list)` holds; an empty list is also falsy.  Such a
  value never arises from a declared field annotation, and a non-empty
  list would raise at `model_.__name__`, so only the empty list is
  modelled;
* `xmlModel` — a `BaseXmlModel` subclass, i.e. an instance of
  `XmlModelMeta`, with its `__name__`, its optional explicit wire tag and
  its ordered `model_fields`.
-/

mutual

inductive PyType where
  | cls (name : String)
  | generic (origin : String)
  | pyList
  | xmlModel (name : String) (tag : Option String)
      (fields : List (String × FieldInfo))

inductive FieldInfo where
  | mk (isEntity : Bool) (path aliasAttr nameAttr : Option String)
      (ann : Option PyType) (hasDefault : Bool)

end

def FieldInfo.isEntity : FieldInfo → Bool
  | FieldInfo.mk e _ _ _ _ _ => e

def FieldInfo.path : FieldInfo → Option String
  | FieldInfo.mk _ p _ _ _ _ => p

def FieldInfo.aliasAttr : FieldInfo → Option String
  | FieldInfo.mk _ _ al _ _ _ => al

def FieldInfo.nameAttr : FieldInfo → Option String
  | FieldInfo.mk _ _ _ na _ _ => na

def FieldInfo.ann : FieldInfo → Option PyType
  | FieldInfo.mk _ _ _ _ an _ => an

def FieldInfo.hasDefault : FieldInfo → Bool
  | FieldInfo.mk _ _ _ _ _ d => d

mutual

def ptDecEq (a b : PyType) : Decidable (a = b) :=
  match a, b with
  | PyType.cls n1, PyType.cls n2 =>
    if h : n1 = n2 then isTrue (by rw [h])
    else isFalse (fun he => h (by cases he; rfl))
  | PyType.generic o1, PyType.generic o2 =>
    if h : o1 = o2 then isTrue (by rw [h])
    else isFalse (fun he => h (by cases he; rfl))
  | PyType.pyList, PyType.pyList => isTrue rfl
  | PyType.xmlModel n1 t1 f1, PyType.xmlModel n2 t2 f2 =>
    if h1 : n1 = n2 then
      if h2 : t1 = t2 then
        match fieldsDecEq f1 f2 with
        | isTrue h3 => isTrue (by rw [h1, h2, h3])
        | isFalse h3 => isFalse (fun he => h3 (by cases he; rfl))
      else isFalse (fun he => h2 (by cases he; rfl))
    else isFalse (fun he => h1 (by cases he; rfl))
  | PyType.cls _, PyType.generic _ => isFalse (fun h => by cases h)
  | PyType.cls _, PyType.pyList => isFalse (fun h => by cases h)
  | PyType.cls _, PyType.xmlModel _ _ _ => isFalse (fun h => by cases h)
  | PyType.generic _, PyType.cls _ => isFalse (fun h => by cases h)
  | PyType.generic _, PyType.pyList => isFalse (fun h => by cases h)
  | PyType.generic _, PyType.xmlModel _ _ _ => isFalse (fun h => by cases h)
  | PyType.pyList, PyType.cls _ => isFalse (fun h => by cases h)
  | PyType.pyList, PyType.generic _ => isFalse (fun h => by cases h)
  | PyType.pyList, PyType.xmlModel _ _ _ => isFalse (fun h => by cases h)
  | PyType.xmlModel _ _ _, PyType.cls _ => isFalse (fun h => by cases h)
  | PyType.xmlModel _ _ _, PyType.generic _ => isFalse (fun h => by cases h)
  | PyType.xmlModel _ _ _, PyType.pyList => isFalse (fun h => by cases h)
termination_by structural a

def ptOptDecEq (a b : Option PyType) : Decidable (a = b) :=
  match a, b with
  | none, none => isTrue rfl
  | none, some _ => isFalse (fun h => by cases h)
  | some _, none => isFalse (fun h => by cases h)
  | some x, some y =>
    match ptDecEq x y with
    | isTrue h => isTrue (by rw [h])
    | isFalse h => isFalse (fun he => h (by cases he; rfl))
termination_by structural a

def fiDecEq (a b : FieldInfo) : Decidable (a = b) :=
  match a, b with
  | FieldInfo.mk e1 p1 al1 na1 an1 d1, FieldInfo.mk e2 p2 al2 na2 an2 d2 =>
    if h1 : e1 = e2 then
      if h2 : p1 = p2 then
        if h3 : al1 = al2 then
          if h4 : na1 = na2 then
            if h6 : d1 = d2 then
              match ptOptDecEq an1 an2 with
              | isTrue h5 => isTrue (by rw [h1, h2, h3, h4, h5, h6])
              | isFalse h5 => isFalse (fun he => h5 (by cases he; rfl))
            else isFalse (fun he => h6 (by cases he; rfl))
          else isFalse (fun he => h4 (by cases he; rfl))
        else isFalse (fun he => h3 (by cases he; rfl))
      else isFalse (fun he => h2 (by cases he; rfl))
    else isFalse (fun he => h1 (by cases he; rfl))
termination_by structural a

def fieldsDecEq (a b : List (String × FieldInfo)) : Decidable (a = b) :=
  match a, b with
  | [], [] => isTrue rfl
  | [], _ :: _ => isFalse (fun h => by cases h)
  | _ :: _, [] => isFalse (fun h => by cases h)
  | (n1, f1) :: r1, (n2, f2) :: r2 =>
    if h1 : n1 = n2 then
      match fiDecEq f1 f2, fieldsDecEq r1 r2 with
      | isTrue h2, isTrue h3 => isTrue (by rw [h1, h2, h3])
      | isFalse h2, _ => isFalse (fun h => h2 (by cases h; rfl))
      | _, isFalse h3 => isFalse (fun h => h3 (by cases h; rfl))
    else isFalse (fun h => h1 (by cases h; rfl))
termination_by structural a

end

instance : DecidableEq PyType := ptDecEq

instance : DecidableEq FieldInfo := fiDecEq

/-- A `BaseXmlModel` subclass seen from outside: its `__name__`, its
optional explicit wire tag (the `tag` class keyword; resolved by
`getattr(model, "__xml_tag__", model.__name__)` and by
`model.model_config.get("tag", model.__name__)`), and its ordered
`model_fields`. -/
structure Model where
  name : String
  tag : Option String
  fields : List (String × FieldInfo)

instance : DecidableEq Model := fun a b =>
  match a, b with
  | Model.mk n1 t1 f1, Model.mk n2 t2 f2 =>
    if h1 : n1 = n2 then
      if h2 : t1 = t2 then
        match fieldsDecEq f1 f2 with
        | isTrue h3 => isTrue (by rw [h1, h2, h3])
        | isFalse h3 => isFalse (fun he => h3 (by cases he; rfl))
      else isFalse (fun he => h2 (by cases he; rfl))
    else isFalse (fun he => h1 (by cases he; rfl))

def Model.toPyType (m : Model) : PyType :=
  PyType.xmlModel m.name m.tag m.fields

/-- The wire tag name of a model: the explicit tag override when present,
otherwise the class's own name.  This is
`getattr(model, "__xml_tag__", model.__name__)` in `generate_xsd_element`
(line 39); pydantic_xml sets `__xml_tag__` on a subclass exactly when an
explicit `tag=` keyword was given.  (`generate_wsdl`'s
`model.model_config.get("tag", model.__name__)` is embedded separately:
see `modelConfigTag`.) -/
def wireTagName (m : Model) : String :=
  m.tag.getD m.name

/-- Python truthiness of an `Optional[str]`: `None` and `""` are falsy. -/
def pyStrTruthy : Option String → Bool
  | none => false
  | some s => s != ""

/-- Python `a or b` on `Optional[str]` values. -/
def pyOrOpt (a b : Option String) : Option String :=
  if pyStrTruthy a then a else b

/-- Tag-name resolution for a field descriptor, from its components
(`generate_xsd_element`, `elif field_info:` branch): for an
`XmlEntityInfo`, `field_info.path or field_info.alias`; otherwise
`getattr(field_info, "alias", None) or getattr(field_info, "name", "Unknown")`. -/
def tagNameFrom (isEntity : Bool) (path aliasAttr nameAttr : Option String) :
    Option String :=
  if isEntity then
    pyOrOpt path aliasAttr
  else
    if pyStrTruthy aliasAttr then aliasAttr
    else some (nameAttr.getD "Unknown")

def fieldTagName (fi : FieldInfo) : Option String :=
  tagNameFrom fi.isEntity fi.path fi.aliasAttr fi.nameAttr

/-- The table `PYTHON_XSD_TYPE_MAP`, verbatim from the source. -/
def PYTHON_XSD_TYPE_MAP : List (String × String) :=
  [("str", "string"), ("int", "integer"), ("float", "double"),
   ("bool", "boolean"), ("date", "date"), ("time", "time"),
   ("datetime", "dateTime"), ("AnyUrl", "anyURI"),
   ("PositiveInt", "positiveInteger")]

/-- Embeds `str(model_.__name__ if model_ else "str")`: `None` and an empty list
object are falsy and give `"str"`; otherwise the object's `__name__`
(for a `list[T]` generic alias that is `"list"`). -/
def scalarTypeKey : Option PyType → String
  | none => "str"
  | some PyType.pyList => "str"
  | some (PyType.cls n) => n
  | some (PyType.generic o) => o
  | some (PyType.xmlModel n _ _) => n

/-- The lookup `PYTHON_XSD_TYPE_MAP.get(key, "string")` applied to the scalar type
key of the underlying annotation. -/
def xsdTypeName (t : Option PyType) : String :=
  (PYTHON_XSD_TYPE_MAP.lookup (scalarTypeKey t)).getD "string"

/-- Embeds `isinstance(field_info.annotation, list)`: true only for an actual
list object, never for a class or a `list[T]` generic alias. -/
def isListInstance : Option PyType → Bool
  | some PyType.pyList => true
  | _ => false

/-- Embeds `isinstance(model_, XmlModelMeta)`. -/
def isXmlModelMeta : Option PyType → Bool
  | some (PyType.xmlModel _ _ _) => true
  | _ => false

/-- Embeds `hasattr(model_, "__xml_tag__")`: only `BaseXmlModel` subclasses
carry the attribute (modelled as present exactly when an explicit tag
was given). -/
def hasattrXmlTag : Option PyType → Bool
  | some (PyType.xmlModel _ (some _) _) => true
  | _ => false

/-- Embeds `model_.__xml_tag__` for the `hasattr` branch. -/
def dunderXmlTag : Option PyType → Option String
  | some (PyType.xmlModel _ t _) => t
  | _ => none

/-- The cardinality block at the end of `generate_xsd_element`, from its
components: repeated (`isinstance(annotation, list)`) fields get
`minOccurs="0"` and `maxOccurs="unbounded"`; otherwise a field whose
default is not `PydanticUndefined` gets `minOccurs="0"`. -/
def cardFrom (isList hasDefault : Bool) (e : Element) : Element :=
  if isList then
    setAttr (setAttr e "minOccurs" (some "0")) "maxOccurs" (some "unbounded")
  else if hasDefault then
    setAttr e "minOccurs" (some "0")
  else
    e

def applyCard (fi : FieldInfo) (e : Element) : Element :=
  cardFrom (isListInstance fi.ann) fi.hasDefault e

/-- Builds `Element("xs:element")` followed by `set("name", v)`. -/
def mkNamed (v : Option String) : Element :=
  Element.mk "xs:element" [("name", v)] [] none

mutual

/-- Lines 53–66 of the source: if the underlying annotation is a model
class, append a `complexType`/`sequence` wrapper holding one generated
element per model field; otherwise set the scalar `type` attribute. -/
def genContent : Option PyType → Element → Element
  | some (PyType.xmlModel _ _ fs), e =>
      addChild e (Element.mk "xs:complexType" []
        [Element.mk "xs:sequence" [] (genFields fs) none] none)
  | t, e => setAttr e "type" (some ("xs:" ++ xsdTypeName t))

/-- The loop over `model_.model_fields.items()`, in declared order. -/
def genFields : List (String × FieldInfo) → List Element
  | [] => []
  | (_, fi) :: rest => genFieldElem fi :: genFields rest

/-- Embeds `generate_xsd_element(field_info=field)` for one field. -/
def genFieldElem : FieldInfo → Element
  | FieldInfo.mk isE p al na an d =>
    cardFrom (isListInstance an) d
      (genContent an (mkNamed (tagNameFrom isE p al na)))

end

/-- Embeds `generate_xsd_element` from the source,
with the same branch structure: resolve `model_`, resolve the `name`
attribute by the four-way `if`/`elif` chain, inline the complex content
or the scalar `type`, then apply the cardinality block when a field
descriptor was given. -/
def generate_xsd_element (model : Option Model)
    (field_info : Option FieldInfo) : Element :=
  let model_ : Option PyType :=
    match model with
    | some m => some m.toPyType
    | none =>
      match field_info with
      | some f => f.ann
      | none => none
  let nameVal : Option String :=
    match model, field_info with
    | some m, _ => some (wireTagName m)
    | none, some f => fieldTagName f
    | none, none =>
      if hasattrXmlTag model_ then dunderXmlTag model_ else some "Unknown"
  let e := genContent model_ (mkNamed nameVal)
  match field_info with
  | some f => applyCard f e
  | none => e

theorem generate_field_eq (f : FieldInfo) :
    generate_xsd_element none (some f) = genFieldElem f := by
  cases f
  simp [generate_xsd_element, genFieldElem, applyCard, fieldTagName,
    FieldInfo.ann, FieldInfo.hasDefault, FieldInfo.isEntity, FieldInfo.path,
    FieldInfo.aliasAttr, FieldInfo.nameAttr]

/-!
Schema aggregation and WSDL assembly.
-/

/-- The module-level `nsmap`: the dictionary is assigned twice in the
source; the second assignment (SOAP/WSDL/XSD/WSDL-SOAP prefixes) is the
binding in effect when either generator runs. -/
def nsmap : List (String × Option String) :=
  [("xmlns:soap", some "http://schemas.xmlsoap.org/wsdl/soap/"),
   ("xmlns:wsdl", some "http://schemas.xmlsoap.org/wsdl/"),
   ("xmlns:xs", some "http://www.w3.org/2001/XMLSchema"),
   ("xmlns:wsdlsoap", some "http://schemas.xmlsoap.org/wsdl/soap/")]

/-- The loop of `generate_xsd_schema_etree`:
`if tag := generate_xsd_element(model=model):` appends a generated
element only when it is truthy, i.e. has at least one child. -/
def schemaChildren : List Model → List Element
  | [] => []
  | m :: rest =>
    let tag := generate_xsd_element (some m) none
    if elementTruthy tag then tag :: schemaChildren rest
    else schemaChildren rest

def generate_xsd_schema_etree (models : List Model) : Element :=
  Element.mk "xs:schema" nsmap (schemaChildren models) none

/-- A parsed URL, as starlette's `Request.url` exposes it: everything up
to (and excluding) the query string, plus query and fragment.
`str(url)` appends `?query` and `#fragment` only when they are
non-empty; `url.replace(query="", fragment="")` clears both. -/
structure URL where
  base : String
  query : String
  fragment : String

def URL.render (u : URL) : String :=
  u.base ++ (if u.query == "" then "" else "?" ++ u.query)
    ++ (if u.fragment == "" then "" else "#" ++ u.fragment)

def URL.replaceQF (u : URL) (q f : String) : URL :=
  URL.mk u.base q f

/-- The incoming service-description request; only its URL is consulted. -/
structure Request where
  url : URL

/-- Python `str.rstrip("/")`: drop every trailing slash.  Implemented on
the character list so that it evaluates by kernel reduction. -/
def rstripSlash (s : String) : String :=
  String.mk (List.reverse (List.dropWhile (fun c => c == '/') s.toList.reverse))

/-- Python `str.title()` restricted to the single-word role keys that
occur here (`"request"`/`"response"`): first letter upper-cased, the
remaining letters lower-cased.  (Full `str.title()` additionally
re-capitalizes after non-alphabetic characters; the role keys used by
the module contain none.) -/
def pyTitle (s : String) : String :=
  match s.toList with
  | [] => ""
  | c :: rest => String.mk (c.toUpper :: rest.map Char.toLower)

/-- The SOAP address location: the request URL with query and fragment
replaced by empty strings, rendered, right-stripped of slashes, with a
slash and the raw operation name appended. -/
def soapLocation (req : Request) (method : String) : String :=
  rstripSlash (URL.render (URL.replaceQF req.url "" "")) ++ "/" ++ method

/-- Embeds `wsdl_action`: the string "input" if the role key equals
"request", otherwise "output". -/
def wsdlAction (action : String) : String :=
  if action == "request" then "input" else "output"

/-- The message name: the operation name followed by the title-cased
role key. -/
def messageName (method action : String) : String :=
  method ++ pyTitle action

/-- Embeds `model.model_config.get("tag", model.__name__)` (line 147 of
the source).  In pydantic v2, `ConfigWrapper.for_model` moves a class
keyword argument into `model_config` only when it is a recognised
`ConfigDict` key; `tag` is not one, so pydantic_xml's `tag=` keyword is
forwarded to `__init_subclass__` — which stores it solely as
`__xml_tag__` — and never reaches `model_config`.  The lookup therefore
always misses and returns the default, the class's `__name__`. -/
def modelConfigTag (m : Model) : String :=
  m.name

/-- The `wsdl:message` emitted for one present role: exactly one
`wsdl:part` named `parameters` whose `element` attribute is
`model.model_config.get("tag", model.__name__)` — in effect always the
class's `__name__` (see `modelConfigTag`). -/
def messageElem (method action : String) (m : Model) : Element :=
  Element.mk "wsdl:message" [("name", some (messageName method action))]
    [Element.mk "wsdl:part"
      [("name", some "parameters"), ("element", some (modelConfigTag m))]
      [] none]
    none

/-- The messages a single operation contributes to the root, in role
order; a role whose model is `None` is skipped (`continue`). -/
def messagesFor (method : String) (roles : List (String × Option Model)) :
    List Element :=
  roles.filterMap (fun ar => ar.2.map (fun m => messageElem method ar.1 m))

/-- The `wsdl:input`/`wsdl:output` children of a portType operation, one
per present role. -/
def portTypeOpChildren (method : String)
    (roles : List (String × Option Model)) : List Element :=
  roles.filterMap (fun ar => ar.2.map (fun _ =>
    Element.mk ("wsdl:" ++ wsdlAction ar.1)
      [("message", some (messageName method ar.1))] [] none))

/-- The portType `wsdl:operation`, named `f"{name}{method}"`. -/
def portTypeOperationElem (name method : String)
    (roles : List (String × Option Model)) : Element :=
  Element.mk "wsdl:operation" [("name", some (name ++ method))]
    (portTypeOpChildren method roles) none

def soapBindingElem : Element :=
  Element.mk "soap:binding"
    [("style", some "document"),
     ("transport", some "http://schemas.xmlsoap.org/soap/http")] [] none

/-- The `wsdl:input`/`wsdl:output` children of a binding operation, each
holding a `soap:body use="literal"`. -/
def bindingOpChildren (method : String)
    (roles : List (String × Option Model)) : List Element :=
  roles.filterMap (fun ar => ar.2.map (fun _ =>
    Element.mk ("wsdl:" ++ wsdlAction ar.1)
      [("message", some (messageName method ar.1))]
      [Element.mk "soap:body" [("use", some "literal")] [] none] none))

/-- The binding's `wsdl:operation`, carrying `soapAction = method` (the
raw operation name) followed by the per-role children. -/
def bindingOperationElem (name method : String)
    (roles : List (String × Option Model)) : Element :=
  Element.mk "wsdl:operation" [("name", some (name ++ method))]
    (Element.mk "soap:operation" [("soapAction", some method)] [] none
      :: bindingOpChildren method roles) none

/-- The per-operation `wsdl:binding`, named `f"{name}{method}"` and typed
with the service name. -/
def bindingElem (name method : String)
    (roles : List (String × Option Model)) : Element :=
  Element.mk "wsdl:binding"
    [("name", some (name ++ method)), ("type", some name)]
    [soapBindingElem, bindingOperationElem name method roles] none

/-- The per-operation `wsdl:port` with its `soap:address`. -/
def portElem (name method : String) (req : Request) : Element :=
  Element.mk "wsdl:port"
    [("name", some (name ++ method)), ("binding", some (name ++ method))]
    [Element.mk "soap:address"
      [("location", some (soapLocation req method))] [] none] none

/-- Embeds `types.add(model)` on the running `set`: a Python set deduplicates by
class identity, embedded as structural model equality.  Iteration order
of a Python set is unspecified; insertion order is the representative
order used here, and no claim depends on the order. -/
def addType (ts : List Model) (m : Model) : List Model :=
  if m ∈ ts then ts else ts ++ [m]

def addRoleTypes (ts : List Model) (roles : List (String × Option Model)) :
    List Model :=
  roles.foldl (fun acc ar =>
    match ar.2 with
    | none => acc
    | some m => addType acc m) ts

/-- The accumulated distinct-model set after the full loop of
`generate_wsdl`. -/
def collectTypes (methods : List (String × List (String × Option Model))) :
    List Model :=
  methods.foldl (fun acc mr => addRoleTypes acc mr.2) []

/-- The children appended to the root inside the loop: per operation its
`wsdl:binding` followed by the operation's `wsdl:message` elements. -/
def wsdlTail (name : String)
    (methods : List (String × List (String × Option Model))) : List Element :=
  (methods.map (fun mr => bindingElem name mr.1 mr.2 :: messagesFor mr.1 mr.2)).flatten

/-- Embeds `generate_wsdl` from the source.  The root's children appear in the
order `SubElement` was called on it: documentation, types (filled last
with the aggregated schema), portType, service, then per operation the
binding followed by that operation's messages.  The `url` parameter is
accepted but never read (the location is derived from `request.url`). -/
def generate_wsdl (name : String)
    (methods : List (String × List (String × Option Model)))
    (url : String) (request : Request) (documentation : String) : Element :=
  Element.mk "wsdl:definitions" (nsmap ++ [("name", some name)])
    (Element.mk "wsdl:documentation" [] [] (some documentation)
      :: Element.mk "wsdl:types" []
           [generate_xsd_schema_etree (collectTypes methods)] none
      :: Element.mk "wsdl:portType" [("name", some name)]
           (methods.map (fun mr => portTypeOperationElem name mr.1 mr.2)) none
      :: Element.mk "wsdl:service" [("name", some name)]
           (methods.map (fun mr => portElem name mr.1 request)) none
      :: wsdlTail name methods) none

/-!
Termination model for the recursion in `generate_xsd_element`.

At runtime the recursion follows Python class objects: a model field's
annotation may name any class, including — via forward references — the
class being defined, so the reference graph may be cyclic.  To reason
about termination we re-express the walk over an explicit class graph: a
finite environment mapping class names to their field lists, with model
annotations referring to classes by name, and a fuel counter spent once
per descent into a model class.  The walk mirrors the body of
`generate_xsd_element` for one underlying annotation; it returns `none`
exactly when the recursion depth exceeds the fuel, so "the recursion
terminates" means "some fuel suffices".  A model reference not bound in
the environment has no fields to walk and is rendered as a scalar.
-/

inductive TypeRef where
  | cls (name : String)
  | generic (origin : String)
  | pyList
  | modelRef (name : String)
deriving DecidableEq

structure FieldRef where
  isEntity : Bool
  path : Option String
  aliasAttr : Option String
  nameAttr : Option String
  ann : Option TypeRef
  hasDefault : Bool
deriving DecidableEq

structure ClassDef where
  fields : List (String × FieldRef)
deriving DecidableEq

abbrev ClassEnv := List (String × ClassDef)

def scalarTypeKeyRef : Option TypeRef → String
  | none => "str"
  | some TypeRef.pyList => "str"
  | some (TypeRef.cls n) => n
  | some (TypeRef.generic o) => o
  | some (TypeRef.modelRef n) => n

def xsdTypeNameRef (t : Option TypeRef) : String :=
  (PYTHON_XSD_TYPE_MAP.lookup (scalarTypeKeyRef t)).getD "string"

def isListRef : Option TypeRef → Bool
  | some TypeRef.pyList => true
  | _ => false

mutual

/-- The recursion skeleton of `generate_xsd_element` over the class
graph: descending into a model class costs one unit of fuel; scalars
cost nothing. -/
def genElemFuel (env : ClassEnv) (fuel : Nat) (t : Option TypeRef)
    (e : Element) : Option Element :=
  match t with
  | some (TypeRef.modelRef n) =>
    match fuel with
    | 0 => none
    | fuel' + 1 =>
      match env.lookup n with
      | some cd =>
        match genFieldsFuel env fuel' cd.fields with
        | some cs =>
          some (addChild e (Element.mk "xs:complexType" []
            [Element.mk "xs:sequence" [] cs none] none))
        | none => none
      | none =>
        some (setAttr e "type" (some ("xs:" ++ xsdTypeNameRef t)))
  | _ => some (setAttr e "type" (some ("xs:" ++ xsdTypeNameRef t)))
termination_by (fuel, 0)

/-- The field loop of the skeleton: each field is generated like
`generate_xsd_element(field_info=field)` (name resolution, content,
cardinality), recursing into its annotation. -/
def genFieldsFuel (env : ClassEnv) (fuel : Nat) :
    List (String × FieldRef) → Option (List Element)
  | [] => some []
  | (_, fr) :: rest =>
    match genElemFuel env fuel fr.ann
        (mkNamed (tagNameFrom fr.isEntity fr.path fr.aliasAttr fr.nameAttr)) with
    | none => none
    | some e1 =>
      match genFieldsFuel env fuel rest with
      | some es => some (cardFrom (isListRef fr.ann) fr.hasDefault e1 :: es)
      | none => none
termination_by fs => (fuel, fs.length + 1)

end

/-- The fuel an annotation needs from the surrounding call, given a rank
assignment on class names. -/
def annNeed (rank : String → Nat) : Option TypeRef → Nat
  | some (TypeRef.modelRef n) => rank n + 1
  | _ => 0

/-- An annotation respects a bound when it either is not a model
reference or refers to a class of strictly smaller rank. -/
def annRankOk (rank : String → Nat) : Option TypeRef → Nat → Bool
  | some (TypeRef.modelRef m), r => decide (rank m < r)
  | _, _ => true

/-- The acyclicity certificate `RankOk env rank`: every model-reference annotation in `env` points
to a class of strictly smaller rank than the class that owns the field —
an explicit certificate that the class graph is acyclic. -/
def RankOk (env : ClassEnv) (rank : String → Nat) : Prop :=
  ∀ p ∈ env, ∀ q ∈ p.2.fields, annRankOk rank q.2.ann (rank p.1) = true

/-- A self-referential model: class `A` with one field annotated with
`A` itself. -/
def cyclicEnvA : ClassEnv :=
  [("A", ClassDef.mk
    [("x", FieldRef.mk false none none none (some (TypeRef.modelRef "A")) false)])]

/-!
Supporting lemmas.
-/

theorem lookup_append_isSome (l1 l2 : List (String × Option String))
    (k : String) (h : (l1.lookup k).isSome = true) :
    ((l1 ++ l2).lookup k).isSome = true := by
  induction l1 with
  | nil => simp [List.lookup] at h
  | cons hd tl ih =>
    obtain ⟨a, b⟩ := hd
    simp only [List.cons_append, List.lookup] at h ⊢
    cases hk : (k == a) with
    | true => simp
    | false =>
      simp only [hk] at h ⊢
      exact ih h

theorem lookup_isSome_map_keys (f : (String × Option String) → (String × Option String))
    (hf : ∀ p, (f p).1 = p.1) (l : List (String × Option String)) (k' : String) :
    ((l.map f).lookup k').isSome = (l.lookup k').isSome := by
  induction l with
  | nil => rfl
  | cons hd tl ih =>
    simp only [List.map, List.lookup]
    rw [hf hd]
    cases hk : (k' == hd.1) with
    | true => simp
    | false => simpa using ih

theorem getAttr_setAttr_isSome (e : Element) (k : String) (v : Option String)
    (k' : String) (h : (getAttr e k').isSome = true) :
    (getAttr (setAttr e k v) k').isSome = true := by
  unfold getAttr at h
  unfold setAttr getAttr
  by_cases hc : (e.attribs.any (fun p => p.1 == k)) = true
  · rw [if_pos hc]
    have hf : ∀ p : String × Option String,
        ((if p.1 == k then (k, v) else p) : String × Option String).1 = p.1 := by
      intro p
      by_cases hp : (p.1 == k) = true
      · rw [if_pos hp]
        exact (eq_of_beq hp).symm
      · rw [if_neg hp]
    rw [lookup_isSome_map_keys _ hf]
    exact h
  · rw [if_neg hc]
    exact lookup_append_isSome _ _ _ h

theorem getAttr_genContent_isSome (t : Option PyType) (e : Element)
    (k' : String) (h : (getAttr e k').isSome = true) :
    (getAttr (genContent t e) k').isSome = true := by
  cases t with
  | none => exact getAttr_setAttr_isSome _ _ _ _ h
  | some ty =>
    cases ty with
    | cls n => exact getAttr_setAttr_isSome _ _ _ _ h
    | generic o => exact getAttr_setAttr_isSome _ _ _ _ h
    | pyList => exact getAttr_setAttr_isSome _ _ _ _ h
    | xmlModel n tg fs => simpa [genContent, addChild, getAttr] using h

theorem getAttr_cardFrom_isSome (b1 b2 : Bool) (e : Element) (k' : String)
    (h : (getAttr e k').isSome = true) :
    (getAttr (cardFrom b1 b2 e) k').isSome = true := by
  cases b1 with
  | true =>
    exact getAttr_setAttr_isSome _ _ _ _ (getAttr_setAttr_isSome _ _ _ _ h)
  | false =>
    cases b2 with
    | true => exact getAttr_setAttr_isSome _ _ _ _ h
    | false => exact h

theorem getAttr_mkNamed_name (v : Option String) :
    getAttr (mkNamed v) "name" = some v := rfl

/-!
Concrete service description used by the example-based claims: service
`"Calculator"`, one operation `"Add"` with a request model tagged
`AddRequest` and a response model tagged `AddResponse`, and base URL
`http://host/svc?x=1#frag`.
-/

def calcRequestModel : Model := Model.mk "AddRequestModel" (some "AddRequest") []

def calcResponseModel : Model := Model.mk "AddResponseModel" (some "AddResponse") []

def calcMethods : List (String × List (String × Option Model)) :=
  [("Add", [("request", some calcRequestModel), ("response", some calcResponseModel)])]

def calcHttpRequest : Request := Request.mk (URL.mk "http://host/svc" "x=1" "frag")

def calcWsdl : Element := generate_wsdl "Calculator" calcMethods "" calcHttpRequest ""

/-!
Claim theorems.
-/

/-- C1: evaluation at the failing input.  A field whose declared
annotation is the repeated/list form `list[int]` (a generic alias) is
NOT detected by `isinstance(field_info.annotation, list)`: the generated
element carries no `minOccurs` and no `maxOccurs` attribute (and is
rendered as a scalar `xs:string`, since `list[int].__name__` is
`"list"`, which is not in the primitive table); with a default present,
only `minOccurs="0"` is set — never `maxOccurs="unbounded"`. -/
theorem c1_list_annotation_not_detected :
    getAttr (generate_xsd_element none (some (FieldInfo.mk false none none none
      (some (PyType.generic "list")) false))) "minOccurs" = none ∧
    getAttr (generate_xsd_element none (some (FieldInfo.mk false none none none
      (some (PyType.generic "list")) false))) "maxOccurs" = none ∧
    getAttr (generate_xsd_element none (some (FieldInfo.mk false none none none
      (some (PyType.generic "list")) false))) "type" = some (some "xs:string") ∧
    getAttr (generate_xsd_element none (some (FieldInfo.mk false none none none
      (some (PyType.generic "list")) true))) "minOccurs" = some (some "0") ∧
    getAttr (generate_xsd_element none (some (FieldInfo.mk false none none none
      (some (PyType.generic "list")) true))) "maxOccurs" = none := by
  refine ⟨?_, ?_, ?_, ?_, ?_⟩ <;> decide

/-- C2: the `name` attribute of an element generated from a field
descriptor follows the resolution precedence: for an `XmlEntityInfo`,
the path falling back to the alias (Python `or`, so empty strings count
as absent); otherwise the alias when truthy, else the `name` attribute
when present, else the literal `"Unknown"`. -/
theorem c2_field_name_precedence (fi : FieldInfo) :
    getAttr (generate_xsd_element none (some fi)) "name" =
      some (if fi.isEntity then pyOrOpt fi.path fi.aliasAttr
            else if pyStrTruthy fi.aliasAttr then fi.aliasAttr
            else some (fi.nameAttr.getD "Unknown")) := by
  cases fi with
  | mk isE p al na an d =>
    cases an with
    | none => cases d <;> rfl
    | some t => cases t <;> cases d <;> rfl

/-- C7: on the Calculator example the SOAP address location is the base
URL with query and fragment stripped and the raw operation name
appended; the messages are named `AddRequest` and `AddResponse`
(operation name plus title-cased role); and the portType operation is
named `CalculatorAdd` (service name concatenated with operation name). -/
theorem c7_calculator_example :
    soapLocation calcHttpRequest "Add" = "http://host/svc/Add" ∧
    ((descendants calcWsdl).any fun e => e.tag == "soap:address"
      && getAttr e "location" == some (some "http://host/svc/Add")) = true ∧
    (calcWsdl.children.any fun e => e.tag == "wsdl:message"
      && getAttr e "name" == some (some "AddRequest")) = true ∧
    (calcWsdl.children.any fun e => e.tag == "wsdl:message"
      && getAttr e "name" == some (some "AddResponse")) = true ∧
    calcWsdl.children.get? 2 = some (Element.mk "wsdl:portType"
      [("name", some "Calculator")]
      [Element.mk "wsdl:operation" [("name", some "CalculatorAdd")]
        [Element.mk "wsdl:input" [("message", some "AddRequest")] [] none,
         Element.mk "wsdl:output" [("message", some "AddResponse")] [] none]
        none]
      none) := by
  refine ⟨?_, ?_, ?_, ?_, ?_⟩ <;> decide

/-- C9: `generate_xsd_element` is total over the embedded inputs; with
neither a model nor a field descriptor it returns an element named
`"Unknown"` with `type="xs:string"`, and for every input combination the
result always carries a `name` attribute. -/
theorem c9_total_with_unknown_fallback :
    generate_xsd_element none none = Element.mk "xs:element"
      [("name", some "Unknown"), ("type", some "xs:string")] [] none ∧
    ∀ (model : Option Model) (field_info : Option FieldInfo),
      (getAttr (generate_xsd_element model field_info) "name").isSome = true := by
  refine ⟨by decide, ?_⟩
  intro model field_info
  cases model with
  | some m =>
    cases m with
    | mk n t fs =>
      have h0 : (getAttr (mkNamed (some (wireTagName (Model.mk n t fs)))) "name").isSome
          = true := rfl
      have h1 := getAttr_genContent_isSome (some (Model.mk n t fs).toPyType) _ "name" h0
      cases field_info with
      | none => exact h1
      | some f =>
        exact getAttr_cardFrom_isSome _ _ _ _ h1
  | none =>
    cases field_info with
    | none => decide
    | some f =>
      have h0 : (getAttr (mkNamed (fieldTagName f)) "name").isSome = true := rfl
      have h1 := getAttr_genContent_isSome f.ann _ "name" h0
      exact getAttr_cardFrom_isSome _ _ _ _ h1

theorem genFields_eq_map (fs : List (String × FieldInfo)) :
    genFields fs = fs.map (fun p => genFieldElem p.2) := by
  induction fs with
  | nil => rfl
  | cons hd tl ih =>
    obtain ⟨a, b⟩ := hd
    simp [genFields, ih]

/-- C6: a record (model) underlying type yields exactly one
`complexType`/`sequence` wrapper holding one generated child per field in
declared order; a non-record underlying type yields zero children and a
`type` attribute drawn from `PYTHON_XSD_TYPE_MAP` (with the table
mapping str→string, int→integer, float→double, bool→boolean, date, time,
datetime→dateTime, AnyUrl→anyURI, PositiveInt→positiveInteger), any
unrecognized name mapping to `"string"`. -/
theorem c6_record_and_scalar_generation :
    (∀ m : Model, (generate_xsd_element (some m) none).children =
      [Element.mk "xs:complexType" []
        [Element.mk "xs:sequence" []
          (m.fields.map (fun p => generate_xsd_element none (some p.2))) none]
        none]) ∧
    (∀ fi : FieldInfo, isXmlModelMeta fi.ann = false →
      (generate_xsd_element none (some fi)).children = [] ∧
      getAttr (generate_xsd_element none (some fi)) "type"
        = some (some ("xs:" ++ xsdTypeName fi.ann))) ∧
    (xsdTypeName (some (PyType.cls "str")) = "string" ∧
     xsdTypeName (some (PyType.cls "int")) = "integer" ∧
     xsdTypeName (some (PyType.cls "float")) = "double" ∧
     xsdTypeName (some (PyType.cls "bool")) = "boolean" ∧
     xsdTypeName (some (PyType.cls "date")) = "date" ∧
     xsdTypeName (some (PyType.cls "time")) = "time" ∧
     xsdTypeName (some (PyType.cls "datetime")) = "dateTime" ∧
     xsdTypeName (some (PyType.cls "AnyUrl")) = "anyURI" ∧
     xsdTypeName (some (PyType.cls "PositiveInt")) = "positiveInteger") ∧
    (∀ s : String, PYTHON_XSD_TYPE_MAP.lookup s = none →
      xsdTypeName (some (PyType.cls s)) = "string") := by
  refine ⟨?_, ?_, by decide, ?_⟩
  · intro m
    cases m with
    | mk n t fs =>
      simp only [generate_xsd_element, Model.toPyType, genContent, addChild,
        mkNamed, genFields_eq_map]
      simp only [List.nil_append, List.map_map]
      refine congrArg (fun cs => [Element.mk "xs:complexType" []
        [Element.mk "xs:sequence" [] cs none] none]) ?_
      refine List.map_congr_left ?_
      intro p _
      exact (generate_field_eq p.2).symm
  · intro fi h
    cases fi with
    | mk isE p al na an d =>
      cases an with
      | none => cases d <;> exact ⟨rfl, rfl⟩
      | some t =>
        cases t with
        | xmlModel n tg fs => simp [isXmlModelMeta, FieldInfo.ann] at h
        | cls n => cases d <;> exact ⟨rfl, rfl⟩
        | generic o => cases d <;> exact ⟨rfl, rfl⟩
        | pyList => cases d <;> exact ⟨rfl, rfl⟩
  · intro s h
    simp [xsdTypeName, scalarTypeKey, h]

theorem c6_record_and_scalar_witness :
    ((generate_xsd_element none (some (FieldInfo.mk false none none none
        (some (PyType.cls "int")) false))).children = [] ∧
      getAttr (generate_xsd_element none (some (FieldInfo.mk false none none none
        (some (PyType.cls "int")) false))) "type"
        = some (some ("xs:" ++ xsdTypeName (some (PyType.cls "int"))))) ∧
    xsdTypeName (some (PyType.cls "Mystery")) = "string" :=
  ⟨c6_record_and_scalar_generation.2.1
      (FieldInfo.mk false none none none (some (PyType.cls "int")) false)
      (by decide),
   c6_record_and_scalar_generation.2.2.2 "Mystery" (by decide)⟩

/-- C3: evaluation at the failing input, and the general fact behind it.
The `wsdl:part` `element` attribute is always the model class's
`__name__`: `model.model_config.get("tag", model.__name__)` never finds
the pydantic-xml `tag=` override (it lives only in `__xml_tag__`), so on
the Calculator example the message `AddRequest` carries a part whose
`element` is `AddRequestModel` — while the aggregated schema names the
model's element `AddRequest` (line 39), so the part's pointer into the
schema dangles whenever the tag differs from the class name. -/
theorem c3_part_element_is_class_name :
    (∀ (method action : String) (m : Model),
      (messageElem method action m).children
        = [Element.mk "wsdl:part"
            [("name", some "parameters"), ("element", some m.name)]
            [] none]) ∧
    (calcWsdl.children.any fun e => e.tag == "wsdl:message"
      && getAttr e "name" == some (some "AddRequest")
      && e.children == [Element.mk "wsdl:part"
          [("name", some "parameters"), ("element", some "AddRequestModel")]
          [] none]) = true ∧
    getAttr (generate_xsd_element (some calcRequestModel) none) "name"
      = some (some "AddRequest") := by
  refine ⟨?_, by decide, by decide⟩
  intro method action m
  rfl

/-- C8: an operation whose response model is absent produces a portType
operation with a `wsdl:input` child but no `wsdl:output` child, a
binding operation likewise with only the `soap:operation` and a
`wsdl:input`, and no message for the absent role — the role is silently
skipped. -/
theorem c8_absent_response_skipped
    (name : String) (methods : List (String × List (String × Option Model)))
    (url : String) (req : Request) (doc : String)
    (method : String) (mreq : Model)
    (hm : (method, [("request", some mreq), ("response", (none : Option Model))])
      ∈ methods) :
    (∃ pt, (generate_wsdl name methods url req doc).children.get? 2 = some pt ∧
      pt.tag = "wsdl:portType" ∧
      portTypeOperationElem name method
        [("request", some mreq), ("response", none)] ∈ pt.children) ∧
    (portTypeOperationElem name method
      [("request", some mreq), ("response", none)]).children.map Element.tag
      = ["wsdl:input"] ∧
    bindingElem name method [("request", some mreq), ("response", none)]
      ∈ (generate_wsdl name methods url req doc).children ∧
    (bindingOperationElem name method
      [("request", some mreq), ("response", none)]).children.map Element.tag
      = ["soap:operation", "wsdl:input"] ∧
    messagesFor method [("request", some mreq), ("response", none)]
      = [messageElem method "request" mreq] := by
  refine ⟨⟨_, rfl, rfl, ?_⟩, rfl, ?_, rfl, rfl⟩
  · exact List.mem_map_of_mem _ hm
  · have h2 : bindingElem name method [("request", some mreq), ("response", none)]
        ∈ wsdlTail name methods := by
      unfold wsdlTail
      refine List.mem_flatten.mpr
        ⟨bindingElem name method [("request", some mreq), ("response", none)]
          :: messagesFor method [("request", some mreq), ("response", none)],
         ?_, List.mem_cons_self _ _⟩
      exact List.mem_map_of_mem _ hm
    exact List.mem_cons_of_mem _ (List.mem_cons_of_mem _ (List.mem_cons_of_mem _
      (List.mem_cons_of_mem _ h2)))

theorem c8_absent_response_witness :
    (∃ pt, (generate_wsdl "Svc"
        [("Ping", [("request", some calcRequestModel), ("response", none)])]
        "" calcHttpRequest "").children.get? 2 = some pt ∧
      pt.tag = "wsdl:portType" ∧
      portTypeOperationElem "Svc" "Ping"
        [("request", some calcRequestModel), ("response", none)] ∈ pt.children) ∧
    (portTypeOperationElem "Svc" "Ping"
      [("request", some calcRequestModel), ("response", none)]).children.map
        Element.tag = ["wsdl:input"] ∧
    bindingElem "Svc" "Ping" [("request", some calcRequestModel), ("response", none)]
      ∈ (generate_wsdl "Svc"
          [("Ping", [("request", some calcRequestModel), ("response", none)])]
          "" calcHttpRequest "").children ∧
    (bindingOperationElem "Svc" "Ping"
      [("request", some calcRequestModel), ("response", none)]).children.map
        Element.tag = ["soap:operation", "wsdl:input"] ∧
    messagesFor "Ping" [("request", some calcRequestModel), ("response", none)]
      = [messageElem "Ping" "request" calcRequestModel] :=
  c8_absent_response_skipped "Svc"
    [("Ping", [("request", some calcRequestModel), ("response", none)])]
    "" calcHttpRequest "" "Ping" calcRequestModel (by decide)

/-!
Deduplication of the model set (`types: set[BaseXmlModel]`).
-/

theorem mem_addType_left {ts : List Model} {m x : Model} (h : x ∈ ts) :
    x ∈ addType ts m := by
  unfold addType
  by_cases hm : m ∈ ts
  · simpa [hm] using h
  · simp only [hm, if_false]
    exact List.mem_append_left _ h

theorem mem_addType_self (ts : List Model) (m : Model) : m ∈ addType ts m := by
  unfold addType
  by_cases hm : m ∈ ts
  · simp [hm]
  · simp [hm]

theorem addType_nodup {ts : List Model} {m : Model} (h : ts.Nodup) :
    (addType ts m).Nodup := by
  unfold addType
  by_cases hm : m ∈ ts
  · simpa [hm] using h
  · simp only [hm, if_false]
    rw [List.nodup_append]
    refine ⟨h, List.nodup_singleton m, ?_⟩
    intro a ha hae
    rw [List.mem_singleton] at hae
    subst hae
    exact hm ha

theorem mem_addRoleTypes_left {roles : List (String × Option Model)}
    {x : Model} : ∀ {ts : List Model}, x ∈ ts → x ∈ addRoleTypes ts roles := by
  induction roles with
  | nil => intro ts h; exact h
  | cons ar rest ih =>
    intro ts h
    unfold addRoleTypes
    rw [List.foldl_cons]
    cases har : ar.2 with
    | none =>
      simp only [har]
      exact ih h
    | some m =>
      simp only [har]
      exact ih (mem_addType_left h)

theorem addRoleTypes_nodup {roles : List (String × Option Model)} :
    ∀ {ts : List Model}, ts.Nodup → (addRoleTypes ts roles).Nodup := by
  induction roles with
  | nil => intro ts h; exact h
  | cons ar rest ih =>
    intro ts h
    unfold addRoleTypes
    rw [List.foldl_cons]
    cases har : ar.2 with
    | none => simp only [har]; exact ih h
    | some m => simp only [har]; exact ih (addType_nodup h)

theorem mem_addRoleTypes_of_role {roles : List (String × Option Model)}
    {action : String} {m : Model} (hr : (action, some m) ∈ roles) :
    ∀ ts : List Model, m ∈ addRoleTypes ts roles := by
  induction roles with
  | nil => cases hr
  | cons ar rest ih =>
    intro ts
    unfold addRoleTypes
    rw [List.foldl_cons]
    rcases List.mem_cons.mp hr with heq | hmem
    · rw [← heq]
      exact mem_addRoleTypes_left (mem_addType_self ts m)
    · cases har : ar.2 with
      | none => exact ih hmem ts
      | some m2 => exact ih hmem (addType ts m2)

/-- Whether some operation role of `methods` references model `m`. -/
def referencesModel (methods : List (String × List (String × Option Model)))
    (m : Model) : Bool :=
  methods.any (fun mr => mr.2.any (fun ar => ar.2 == some m))

theorem mem_collect_left {methods : List (String × List (String × Option Model))}
    {x : Model} :
    ∀ {ts : List Model}, x ∈ ts → x ∈ methods.foldl (fun acc mr => addRoleTypes acc mr.2) ts := by
  induction methods with
  | nil => intro ts h; exact h
  | cons hd tl ih =>
    intro ts h
    rw [List.foldl_cons]
    exact ih (mem_addRoleTypes_left h)

theorem collect_foldl_nodup {methods : List (String × List (String × Option Model))} :
    ∀ {ts : List Model}, ts.Nodup →
      (methods.foldl (fun acc mr => addRoleTypes acc mr.2) ts).Nodup := by
  induction methods with
  | nil => intro ts h; exact h
  | cons hd tl ih =>
    intro ts h
    rw [List.foldl_cons]
    exact ih (addRoleTypes_nodup h)

theorem collectTypes_nodup (methods : List (String × List (String × Option Model))) :
    (collectTypes methods).Nodup := by
  unfold collectTypes
  exact collect_foldl_nodup List.nodup_nil

theorem mem_collect_foldl_of_ref {m : Model} :
    ∀ (methods : List (String × List (String × Option Model)))
      (ts : List Model),
      (∃ mr ∈ methods, ∃ ar ∈ mr.2, ar.2 = some m) →
      m ∈ methods.foldl (fun acc mr => addRoleTypes acc mr.2) ts := by
  intro methods
  induction methods with
  | nil =>
    intro ts h
    obtain ⟨mr, hmr, _⟩ := h
    cases hmr
  | cons hd tl ih =>
    intro ts h
    rw [List.foldl_cons]
    obtain ⟨mr, hmr, ar, har, har2⟩ := h
    rcases List.mem_cons.mp hmr with heq | hmem
    · subst heq
      have hrole : (ar.1, some m) ∈ mr.2 := by
        rw [← har2]
        exact har
      exact mem_collect_left (mem_addRoleTypes_of_role hrole ts)
    · exact ih _ ⟨mr, hmem, ar, har, har2⟩

theorem mem_collectTypes_of_ref
    {methods : List (String × List (String × Option Model))} {m : Model}
    (h : referencesModel methods m = true) : m ∈ collectTypes methods := by
  unfold referencesModel at h
  obtain ⟨mr, hmr, hany⟩ := List.any_eq_true.mp h
  obtain ⟨ar, har, hbeq⟩ := List.any_eq_true.mp hany
  exact mem_collect_foldl_of_ref methods [] ⟨mr, hmr, ar, har, eq_of_beq hbeq⟩

theorem elementTruthy_gen_model (m : Model) :
    elementTruthy (generate_xsd_element (some m) none) = true := by
  cases m with
  | mk n t fs => rfl

theorem schemaChildren_eq_map (l : List Model) :
    schemaChildren l = l.map (fun m => generate_xsd_element (some m) none) := by
  induction l with
  | nil => rfl
  | cons hd tl ih =>
    simp [schemaChildren, elementTruthy_gen_model, ih]

/-- C4: every model referenced as a request or response of some
operation occurs exactly once in the deduplicated model set, and the
aggregated `xs:schema` has exactly one top-level child per entry of that
set (every model element is truthy, so none is dropped by the
`if tag :=` check). -/
theorem c4_model_appears_exactly_once
    (methods : List (String × List (String × Option Model))) (m : Model)
    (h : referencesModel methods m = true) :
    List.count m (collectTypes methods) = 1 ∧
    (generate_xsd_schema_etree (collectTypes methods)).children
      = (collectTypes methods).map (fun mm => generate_xsd_element (some mm) none) := by
  constructor
  · exact List.count_eq_one_of_mem (collectTypes_nodup methods)
      (mem_collectTypes_of_ref h)
  · exact schemaChildren_eq_map (collectTypes methods)

theorem c4_model_appears_witness :
    List.count calcRequestModel (collectTypes
      [("A", [("request", some calcRequestModel), ("response", some calcRequestModel)]),
       ("B", [("request", some calcRequestModel), ("response", none)])]) = 1 ∧
    (generate_xsd_schema_etree (collectTypes
      [("A", [("request", some calcRequestModel), ("response", some calcRequestModel)]),
       ("B", [("request", some calcRequestModel), ("response", none)])])).children
      = (collectTypes
          [("A", [("request", some calcRequestModel), ("response", some calcRequestModel)]),
           ("B", [("request", some calcRequestModel), ("response", none)])]).map
          (fun mm => generate_xsd_element (some mm) none) :=
  c4_model_appears_exactly_once
    [("A", [("request", some calcRequestModel), ("response", some calcRequestModel)]),
     ("B", [("request", some calcRequestModel), ("response", none)])]
    calcRequestModel (by decide)

/-!
Termination of the recursion (claim C10).
-/

theorem mem_of_lookup (env : ClassEnv) (n : String) (cd : ClassDef)
    (h : env.lookup n = some cd) : (n, cd) ∈ env := by
  induction env with
  | nil => simp [List.lookup] at h
  | cons hd tl ih =>
    obtain ⟨a, b⟩ := hd
    simp only [List.lookup] at h
    cases hk : (n == a) with
    | true =>
      have hna : n = a := eq_of_beq hk
      subst hna
      simp only [hk] at h
      have hb : b = cd := by simpa using h
      subst hb
      exact List.mem_cons_self _ _
    | false =>
      simp only [hk] at h
      exact List.mem_cons_of_mem _ (ih h)

theorem genFuel_isSome_of_rank (env : ClassEnv) (rank : String → Nat)
    (hok : RankOk env rank) :
    ∀ fuel : Nat,
      (∀ (t : Option TypeRef) (e : Element), annNeed rank t ≤ fuel →
        (genElemFuel env fuel t e).isSome = true) ∧
      (∀ fs : List (String × FieldRef),
        (∀ q ∈ fs, annNeed rank q.2.ann ≤ fuel) →
        (genFieldsFuel env fuel fs).isSome = true) := by
  intro fuel
  induction fuel with
  | zero =>
    have hleft : ∀ (t : Option TypeRef) (e : Element), annNeed rank t ≤ 0 →
        (genElemFuel env 0 t e).isSome = true := by
      intro t e h
      cases t with
      | none => simp [genElemFuel]
      | some tr =>
        cases tr with
        | modelRef n => simp [annNeed] at h
        | cls nm => simp [genElemFuel]
        | generic o => simp [genElemFuel]
        | pyList => simp [genElemFuel]
    refine ⟨hleft, ?_⟩
    intro fs h
    induction fs with
    | nil => simp [genFieldsFuel]
    | cons hd tl ihf =>
      obtain ⟨a, fr⟩ := hd
      have h1 := hleft fr.ann
        (mkNamed (tagNameFrom fr.isEntity fr.path fr.aliasAttr fr.nameAttr))
        (h (a, fr) (List.mem_cons_self _ _))
      have h2 := ihf (fun q hq => h q (List.mem_cons_of_mem _ hq))
      obtain ⟨e1, he1⟩ := Option.isSome_iff_exists.mp h1
      obtain ⟨es, hes⟩ := Option.isSome_iff_exists.mp h2
      simp [genFieldsFuel, he1, hes]
  | succ fuel ih =>
    have hleft : ∀ (t : Option TypeRef) (e : Element),
        annNeed rank t ≤ fuel + 1 →
        (genElemFuel env (fuel + 1) t e).isSome = true := by
      intro t e h
      cases t with
      | none => simp [genElemFuel]
      | some tr =>
        cases tr with
        | cls nm => simp [genElemFuel]
        | generic o => simp [genElemFuel]
        | pyList => simp [genElemFuel]
        | modelRef n =>
          have hrn : rank n ≤ fuel := by
            simp only [annNeed] at h
            omega
          cases hl : env.lookup n with
          | none => simp [genElemFuel, hl]
          | some cd =>
            have hmem : (n, cd) ∈ env := mem_of_lookup env n cd hl
            have hfields : ∀ q ∈ cd.fields, annNeed rank q.2.ann ≤ fuel := by
              intro q hq
              have hro := hok (n, cd) hmem q hq
              cases hann : q.2.ann with
              | none => simp [annNeed]
              | some tq =>
                cases tq with
                | cls _ => simp [annNeed]
                | generic _ => simp [annNeed]
                | pyList => simp [annNeed]
                | modelRef mm =>
                  rw [hann] at hro
                  simp only [annRankOk, decide_eq_true_eq] at hro
                  simp only [annNeed]
                  omega
            have h2 := ih.2 cd.fields hfields
            obtain ⟨cs, hcs⟩ := Option.isSome_iff_exists.mp h2
            simp [genElemFuel, hl, hcs]
    refine ⟨hleft, ?_⟩
    intro fs h
    induction fs with
    | nil => simp [genFieldsFuel]
    | cons hd tl ihf =>
      obtain ⟨a, fr⟩ := hd
      have h1 := hleft fr.ann
        (mkNamed (tagNameFrom fr.isEntity fr.path fr.aliasAttr fr.nameAttr))
        (h (a, fr) (List.mem_cons_self _ _))
      have h2 := ihf (fun q hq => h q (List.mem_cons_of_mem _ hq))
      obtain ⟨e1, he1⟩ := Option.isSome_iff_exists.mp h1
      obtain ⟨es, hes⟩ := Option.isSome_iff_exists.mp h2
      simp [genFieldsFuel, he1, hes]

theorem genElemFuel_cyclic_none :
    ∀ (fuel : Nat) (e : Element),
      genElemFuel cyclicEnvA fuel (some (TypeRef.modelRef "A")) e = none := by
  intro fuel
  induction fuel with
  | zero => intro e; simp [genElemFuel]
  | succ fuel ih =>
    intro e
    have ih2 := ih (mkNamed (tagNameFrom false none none none))
    simp only [cyclicEnvA] at ih2
    simp [genElemFuel, cyclicEnvA, genFieldsFuel, List.lookup, ih2]

/-- C10: over the explicit class graph, the recursion of
`generate_xsd_element` terminates for every acyclic model graph — any
rank certificate bounds the fuel it needs — while a self-referential
model class exhausts every finite fuel, so the guarantee does not extend
to cyclic graphs. -/
theorem c10_recursion_terminates_iff_acyclic :
    (∀ (env : ClassEnv) (rank : String → Nat), RankOk env rank →
      ∀ (n : String) (e : Element),
        (genElemFuel env (rank n + 1) (some (TypeRef.modelRef n)) e).isSome
          = true) ∧
    (∀ (fuel : Nat) (e : Element),
      genElemFuel cyclicEnvA fuel (some (TypeRef.modelRef "A")) e = none) := by
  constructor
  · intro env rank hok n e
    exact (genFuel_isSome_of_rank env rank hok (rank n + 1)).1
      (some (TypeRef.modelRef n)) e (by simp [annNeed])
  · exact genElemFuel_cyclic_none

def acyclicEnvExample : ClassEnv :=
  [("Leaf", ClassDef.mk
    [("v", FieldRef.mk false none none none (some (TypeRef.cls "int")) false)]),
   ("Root", ClassDef.mk
    [("child", FieldRef.mk false none none none
      (some (TypeRef.modelRef "Leaf")) false)])]

def rankExample : String → Nat := fun n => if n = "Root" then 1 else 0

instance (env : ClassEnv) (rank : String → Nat) : Decidable (RankOk env rank) := by
  unfold RankOk
  infer_instance

theorem c10_recursion_witness :
    RankOk acyclicEnvExample rankExample ∧
    (genElemFuel acyclicEnvExample (rankExample "Root" + 1)
      (some (TypeRef.modelRef "Root")) (mkNamed (some "Root"))).isSome = true :=
  ⟨by decide,
   c10_recursion_terminates_iff_acyclic.1 acyclicEnvExample rankExample
     (by decide) "Root" (mkNamed (some "Root"))⟩
